import Mathlib

/-!
Verification of the kelvin-ng schedule-resolution core (configuration.go).

Shallow embedding conventions:
* Instants (`time.Time`) are modelled as `Int` values counting seconds on a
  linear UTC timeline (no DST; a calendar day is exactly 86400 seconds, as it
  is for the UTC location used by the repository's tests).  `date.AddDate(0,0,±1)`
  becomes `date ± 86400`, and `time.Date(yr,mth,dy,h,m,s,...)` becomes
  `startOfDay referenceTime + h*3600 + m*60 + s`.  The 59-nanosecond component
  of the end-of-day marker is dropped (sub-second precision is never observed
  by the claims).
* Machine-integer overflow of minute offsets (strconv.Atoi / Duration
  multiplication) is not modelled; offsets are exact integers.
* Fallible Go functions return an explicit result type.  A Go `error` return
  is `.err`; a Go runtime panic (out-of-range slice index) is `.panic`.
  Values that Go returns *alongside* a non-nil error (and that every caller
  discards) are not carried.
* The log.Warningf call that reports the offending schedule entry when a
  resolution error aborts `ComputeNewStyleSchedule` is modelled by carrying
  the offending entry in the error result (`BuildRes.err`).
-/

namespace Kelvin

/-- `TimedColorTemperature` from configuration.go: a raw schedule entry. -/
structure TimedColorTemperature where
  time : String
  colorTemperature : Int
  brightness : Int
deriving DecidableEq

/-- `TimeStamp` from configuration.go: a parsed and validated entry.
The instant is an `Int` (seconds on the linear timeline). -/
structure TimeStamp where
  time : Int
  colorTemperature : Int
  brightness : Int
deriving DecidableEq

/-- `TimePointType` from configuration.go. -/
inductive TimePointType where
  | FixedTimePoint
  | Sunrise
  | Sunset
deriving DecidableEq

/-- Errors returned (as Go `error` values) by the embedded functions. -/
inductive GoError where
  | invalidTimestamp (spec : String)
  | timeParseError (spec : String)
  | noScheduleForLight (light : Int)
deriving DecidableEq

/-- Result of a fallible Go function: a value, a returned error, or a
runtime panic. -/
inductive GoRes (α : Type) where
  | ok (val : α)
  | err (e : GoError)
  | panic
deriving DecidableEq

/-- Midnight at the start of the calendar day containing instant `t`
(UTC linear timeline). -/
def startOfDay (t : Int) : Int := t - t % 86400

/-- Characters matched by `\s` in Go's regexp syntax (RE2): tab, newline,
form feed, carriage return, space. -/
def isGoSpace (c : Char) : Bool :=
  c == ' ' || c == '\t' || c == '\n' || c == '\x0c' || c == '\r'

/-- Value of a string of decimal digits, as `strconv.Atoi` computes it
(overflow not modelled). -/
def digitsToNat (ds : List Char) : Nat :=
  ds.foldl (fun a c => a * 10 + (c.toNat - 48)) 0

/-- Whether the first alternative of the regex in `AsTimestamp2`,
`\d{1,2}:\d\d`, matches at the head of `cs` (two-digit hour preferred,
then one-digit hour, exactly as a leftmost-first engine tries them). -/
def matchTimeAt : List Char → Bool
  | c1 :: c2 :: c3 :: c4 :: c5 :: _ =>
      (c1.isDigit && c2.isDigit && c3 == ':' && c4.isDigit && c5.isDigit) ||
      (c1.isDigit && c2 == ':' && c3.isDigit && c4.isDigit)
  | [c1, c2, c3, c4] => c1.isDigit && c2 == ':' && c3.isDigit && c4.isDigit
  | _ => false

/-- Strip a literal pattern from the head of a character list. -/
def stripLit : List Char → List Char → Option (List Char)
  | [], cs => some cs
  | _ :: _, [] => none
  | p :: ps, c :: cs => if c == p then stripLit ps cs else none

/-- Match `\s*(\d+)\s*m.*` (the part of the optional offset group after the
sign): returns the digit run.  Maximal munch is faithful here: a shorter
digit run would put a digit where `\s*m` must match, so only the maximal
run can succeed, and `.*` always matches. -/
def matchOffsetNum (cs : List Char) : Option (List Char) :=
  let cs2 := cs.dropWhile isGoSpace
  let ds := cs2.takeWhile Char.isDigit
  if ds.isEmpty then none
  else
    match (cs2.dropWhile Char.isDigit).dropWhile isGoSpace with
    | 'm' :: _ => some ds
    | _ => none

/-- Match the optional offset group `(\s*(\+|-)\s*(\d+)\s*m.*){0,1}` after
`sunrise`/`sunset`: returns the sign (`true` = `+`) and the digit run, or
`none` when the group does not participate.  Greedy `\s*` before the sign
is faithful because the sign characters are not whitespace. -/
def matchOffset (cs : List Char) : Option (Bool × List Char) :=
  match cs.dropWhile isGoSpace with
  | '+' :: cs2 => (matchOffsetNum cs2).map (fun ds => (true, ds))
  | '-' :: cs2 => (matchOffsetNum cs2).map (fun ds => (false, ds))
  | _ => none

/-- Outcome of `regexp.FindStringSubmatch` for the regex
`(?P<time>\d{1,2}:\d\d)|(?P<spec>(sunrise|sunset)(\s*(\+|-)\s*(\d+)\s*m.*){0,1})`:
either the time alternative matched (group 1 non-empty; the matched text is
irrelevant because the code re-parses the whole string), or the spec
alternative matched with the given base and optional offset. -/
inductive ReMatch where
  | timeMatch
  | specMatch (isSunrise : Bool) (off : Option (Bool × List Char))
deriving DecidableEq

/-- Try the spec alternative `(sunrise|sunset)(offset)?` at the head of `cs`
(`sunrise` is the first branch of the alternation).  The two literals are
mutually exclusive at any position, and the optional group cannot make the
alternative fail, so no backtracking across branches is needed. -/
def matchSpecAt (cs : List Char) : Option ReMatch :=
  match stripLit "sunrise".data cs with
  | some tl => some (.specMatch true (matchOffset tl))
  | none =>
    match stripLit "sunset".data cs with
    | some tl => some (.specMatch false (matchOffset tl))
    | none => none

/-- Leftmost-first search of the (unanchored) regex over the string: scan
start positions left to right; at each position try the `time` alternative,
then the `spec` alternative.  `none` models `FindStringSubmatch` returning
a nil slice (the regex cannot match the empty string, so a match is never
empty). -/
def findSubmatch : List Char → Option ReMatch
  | [] => none
  | c :: cs =>
    if matchTimeAt (c :: cs) then some .timeMatch
    else
      match matchSpecAt (c :: cs) with
      | some m => some m
      | none => findSubmatch cs

/-- `time.Parse("15:04", s)`: one- or two-digit hour (two digits preferred),
a literal colon, exactly two minute digits, nothing left over; hour in
0..23, minute in 0..59.  All failure modes collapse to `none`. -/
def goParseHHMM (s : String) : Option (Nat × Nat) :=
  match s.data with
  | c1 :: c2 :: rest =>
    if c1.isDigit && c2.isDigit then
      match rest with
      | [':', m1, m2] =>
        if m1.isDigit && m2.isDigit then
          let h := (c1.toNat - 48) * 10 + (c2.toNat - 48)
          let m := (m1.toNat - 48) * 10 + (m2.toNat - 48)
          if h ≤ 23 && m ≤ 59 then some (h, m) else none
        else none
      | _ => none
    else if c1.isDigit && c2 == ':' then
      match rest with
      | [m1, m2] =>
        if m1.isDigit && m2.isDigit then
          let h := c1.toNat - 48
          let m := (m1.toNat - 48) * 10 + (m2.toNat - 48)
          if h ≤ 23 && m ≤ 59 then some (h, m) else none
        else none
      | _ => none
    else none
  | _ => none

/-- `TimedColorTemperature.AsTimestamp2` from configuration.go.
Notes kept from the source:
* when `FindStringSubmatch` finds no match it returns a nil slice and the
  subsequent `matches[0]` index panics — the `Invalid timestamp` error
  branch guarded by `len(matches[0]) == 0` is unreachable, because this
  regex never produces an empty match;
* in the `HH:MM` branch the *whole* input string is re-parsed with
  `time.Parse("15:04", ...)` (seconds are always zero);
* in the sun branch the reference time is ignored: the supplied
  sunrise/sunset instant is used directly, shifted by the optional offset;
* color temperature and brightness are copied unchanged. -/
def AsTimestamp2 (color : TimedColorTemperature) (referenceTime sunrise sunset : Int) :
    GoRes (TimeStamp × TimePointType) :=
  match findSubmatch color.time.data with
  | none => .panic
  | some .timeMatch =>
    match goParseHHMM color.time with
    | none => .err (.timeParseError color.time)
    | some (h, m) =>
      .ok (⟨startOfDay referenceTime + h * 3600 + m * 60,
            color.colorTemperature, color.brightness⟩, .FixedTimePoint)
  | some (.specMatch isRise off) =>
    let base := if isRise then sunrise else sunset
    let t :=
      match off with
      | none => base
      | some (isPlus, ds) =>
        if isPlus then base + 60 * (digitsToNat ds : Int)
        else base - 60 * (digitsToNat ds : Int)
    .ok (⟨t, color.colorTemperature, color.brightness⟩,
         if isRise then .Sunrise else .Sunset)

/-- `TimedColorTemperature.AsTimestamp` from configuration.go (legacy
parser): `time.Parse("15:04", ...)` only; the time-of-now timestamp Go
returns alongside a parse error is discarded by every caller and is not
carried. -/
def AsTimestamp (color : TimedColorTemperature) (referenceTime : Int) : GoRes TimeStamp :=
  match goParseHHMM color.time with
  | none => .err (.timeParseError color.time)
  | some (h, m) =>
    .ok ⟨startOfDay referenceTime + h * 3600 + m * 60,
         color.colorTemperature, color.brightness⟩

/-- Result of `ComputeNewStyleSchedule`: the resolved list, or a returned
error together with the offending entry (which the source reports via
`log.Warningf` before returning the error), or a runtime panic. -/
inductive BuildRes where
  | ok (timeStamps : List TimeStamp)
  | err (entry : TimedColorTemperature) (e : GoError)
  | panic
deriving DecidableEq

/-- The clamp applied inside the loop of `ComputeNewStyleSchedule`: if the
new instant is not strictly after the previous element's instant
(`Before || Equal`), replace it by the previous instant plus one minute. -/
def clampStep (previousTime : Int) (ts : TimeStamp) : TimeStamp :=
  if ts.time ≤ previousTime then ⟨previousTime + 60, ts.colorTemperature, ts.brightness⟩
  else ts

/-- The `for _, timedColorTemp := range configSchedule` loop of
`ComputeNewStyleSchedule`: resolve each entry against the current day,
clamp against the last appended element, append.  Reading
`timeStamps[len(timeStamps)-1]` of an empty slice would panic (never
happens: the accumulator is seeded before the loop). -/
def addTimePoints (date sunrise sunset : Int) :
    List TimedColorTemperature → List TimeStamp → BuildRes
  | [], acc => .ok acc
  | tc :: rest, acc =>
    match AsTimestamp2 tc date sunrise sunset with
    | .panic => .panic
    | .err e => .err tc e
    | .ok (ts, _) =>
      match acc.getLast? with
      | none => .panic
      | some prev => addTimePoints date sunrise sunset rest (acc ++ [clampStep prev.time ts])

/-- `ComputeNewStyleSchedule` from configuration.go.  Indexing
`configSchedule[len(configSchedule)-1]` of an empty schedule panics.  The
single supplied sunrise/sunset pair is reused for the previous-day seed,
every current-day anchor, and the next-day seed; only the reference day
changes (±86400 s models `AddDate(0,0,±1)` on the UTC timeline).  The
`timeType` values are only printed by the source and are dropped here. -/
def ComputeNewStyleSchedule (configSchedule : List TimedColorTemperature)
    (sunrise sunset date : Int) : BuildRes :=
  match configSchedule.getLast? with
  | none => .panic
  | some lastSchedule =>
    match AsTimestamp2 lastSchedule (date - 86400) sunrise sunset with
    | .panic => .panic
    | .err e => .err lastSchedule e
    | .ok (previousDayLastTimestamp, _) =>
      match addTimePoints date sunrise sunset configSchedule [previousDayLastTimestamp] with
      | .panic => .panic
      | .err tc e => .err tc e
      | .ok acc =>
        match configSchedule.head? with
        | none => .panic
        | some first =>
          match AsTimestamp2 first (date + 86400) sunrise sunset with
          | .panic => .panic
          | .err e => .err first e
          | .ok (nextDayFirstTimestamp, _) => .ok (acc ++ [nextDayFirstTimestamp])

/-- `Location` from configuration.go.  The float64 coordinates are opaque
tokens here (modelled as `Int`): configuration.go never computes with
them, it only forwards them to the injected sun-state calculator. -/
structure Location where
  latitude : Int
  longitude : Int
deriving DecidableEq

/-- `LightSchedule` from configuration.go (the fields consumed by the
schedule-resolution core). -/
structure LightSchedule where
  name : String
  associatedDeviceIDs : List Int
  enableWhenLightsAppear : Bool
  defaultColorTemperature : Int
  defaultBrightness : Int
  beforeSunrise : List TimedColorTemperature
  afterSunset : List TimedColorTemperature
  schedule : List TimedColorTemperature
deriving DecidableEq

/-- `Configuration` from configuration.go, restricted to the fields the
schedule-resolution core reads (file/bridge/web-interface fields are
persistence plumbing outside the claims). -/
structure Configuration where
  location : Location
  schedules : List LightSchedule
deriving DecidableEq

/-- Modelled from the spec: `SunStateCalculatorInterface` is declared
outside configuration.go (not under src/).  Per the spec's external
interface section it exposes `CalculateSunrise(date, latitude, longitude)`
and `CalculateSunset(date, latitude, longitude)`, each returning an
instant. -/
structure SunStateCalculator where
  calculateSunrise : Int → Int → Int → Int
  calculateSunset : Int → Int → Int → Int

/-- Modelled from the spec: the `Schedule` struct is defined in a
repository file that is not under src/; its fields are taken from their
uses in configuration.go and from the spec's `DaySchedule` description
(end-of-day instant, the day's sunrise/sunset points, the unified resolved
sequence, the legacy before-sunrise/after-sunset sequences, and the
enable-when-lights-appear flag).  Go zero values fill the fields a code
path does not set. -/
structure Schedule where
  endOfDay : Int
  sunrise : TimeStamp
  sunset : TimeStamp
  times : List TimeStamp
  beforeSunrise : List TimeStamp
  afterSunset : List TimeStamp
  enableWhenLightsAppear : Bool
deriving DecidableEq

/-- Modelled from the spec: `containsInt` is a helper defined outside
src/; per the spec the selector picks the definition "whose associated
light-ID set contains" the identifier, so this is list membership. -/
def containsInt (l : List Int) (x : Int) : Bool := l.contains x

/-- The first-match selection loop of `lightScheduleForDay` (`break` on
the first candidate whose associated device IDs contain the light). -/
def findLightSchedule : List LightSchedule → Int → Option LightSchedule
  | [], _ => none
  | candidate :: rest, light =>
    if containsInt candidate.associatedDeviceIDs light then some candidate
    else findLightSchedule rest light

/-- The per-entry legacy loops of `lightScheduleForDay`: resolve each
entry with `AsTimestamp`, skipping (with a warning) entries that fail to
parse. -/
def legacyResolve (entries : List TimedColorTemperature) (date : Int) : List TimeStamp :=
  match entries with
  | [] => []
  | candidate :: rest =>
    match AsTimestamp candidate date with
    | .ok timestamp => timestamp :: legacyResolve rest date
    | _ => legacyResolve rest date

/-- `Configuration.lightScheduleForDay` from configuration.go.  End of day
is 23:59:59 of `date`'s day (the 59 ns component is below this model's
resolution).  On error Go returns the partially-filled schedule alongside
the error; callers only look at the error, so `.err` carries none of it. -/
def lightScheduleForDay (configuration : Configuration) (light : Int) (date : Int)
    (sunStateCalculator : SunStateCalculator) : GoRes Schedule :=
  let endOfDay := startOfDay date + 23 * 3600 + 59 * 60 + 59
  match findLightSchedule configuration.schedules light with
  | none => .err (.noScheduleForLight light)
  | some lightSchedule =>
    let sunriseTs : TimeStamp :=
      ⟨sunStateCalculator.calculateSunrise date configuration.location.latitude
          configuration.location.longitude,
       lightSchedule.defaultColorTemperature, lightSchedule.defaultBrightness⟩
    let sunsetTs : TimeStamp :=
      ⟨sunStateCalculator.calculateSunset date configuration.location.latitude
          configuration.location.longitude,
       lightSchedule.defaultColorTemperature, lightSchedule.defaultBrightness⟩
    if lightSchedule.schedule.length > 0 then
      match ComputeNewStyleSchedule lightSchedule.schedule sunriseTs.time sunsetTs.time date with
      | .ok newScheduleTimes =>
        .ok ⟨endOfDay, sunriseTs, sunsetTs, newScheduleTimes, [], [], false⟩
      | .err _ e => .err e
      | .panic => .panic
    else
      .ok ⟨endOfDay, sunriseTs, sunsetTs, [],
           legacyResolve lightSchedule.beforeSunrise date,
           legacyResolve lightSchedule.afterSunset date,
           lightSchedule.enableWhenLightsAppear⟩

/-- Whether a Go result is a successful (nil-error, non-panicking) return. -/
def isOk {α : Type} : GoRes α → Bool
  | .ok _ => true
  | _ => false

lemma getD_append_left {α : Type} (l₁ l₂ : List α) (d : α) :
    ∀ n, n < l₁.length → (l₁ ++ l₂).getD n d = l₁.getD n d := by
  induction l₁ with
  | nil => intro n h; simp at h
  | cons a t ih =>
    intro n h
    cases n with
    | zero => rfl
    | succ m =>
      simp only [List.cons_append, List.getD_cons_succ]
      exact ih m (by simpa using h)

lemma getD_snoc_length {α : Type} (l : List α) (a : α) (d : α) :
    (l ++ [a]).getD l.length d = a := by
  induction l with
  | nil => rfl
  | cons b t ih =>
    simp only [List.cons_append, List.length_cons, List.getD_cons_succ]
    exact ih

lemma getLast?_eq_getD {α : Type} (d : α) :
    ∀ (l : List α) (x : α), l.getLast? = some x → l.getD (l.length - 1) d = x := by
  intro l
  induction l with
  | nil => intro x h; simp at h
  | cons a t ih =>
    intro x h
    cases t with
    | nil =>
      have h0 : (([a] : List α).getLast?) = some a := rfl
      rw [h0] at h
      exact Option.some.inj h
    | cons b u =>
      rw [List.getLast?_cons_cons] at h
      have := ih x h
      simpa using this

lemma head?_eq_getD {α : Type} (d : α) (l : List α) (h : l ≠ []) :
    l.head? = some (l.getD 0 d) := by
  cases l with
  | nil => exact absurd rfl h
  | cons a t => rfl

lemma addTimePoints_ok (date sr ss : Int) :
    ∀ (entries : List TimedColorTemperature) (acc res : List TimeStamp),
      addTimePoints date sr ss entries acc = .ok res →
      res.length = acc.length + entries.length ∧
      (∀ i, i < acc.length → res.getD i ⟨0,0,0⟩ = acc.getD i ⟨0,0,0⟩) ∧
      (acc ≠ [] → ∀ j, j < entries.length →
        ∃ r tp, AsTimestamp2 (entries.getD j ⟨"",0,0⟩) date sr ss = .ok (r, tp) ∧
          res.getD (acc.length + j) ⟨0,0,0⟩ =
            clampStep ((res.getD (acc.length + j - 1) ⟨0,0,0⟩).time) r) := by
  intro entries
  induction entries with
  | nil =>
    intro acc res h
    rw [addTimePoints] at h
    cases h
    refine ⟨by simp, fun i _ => rfl, ?_⟩
    intro _ j hj
    simp at hj
  | cons tc rest ih =>
    intro acc res h
    rw [addTimePoints] at h
    split at h
    · exact absurd h (by simp)
    · exact absurd h (by simp)
    · rename_i ts tp hA
      split at h
      · exact absurd h (by simp)
      · rename_i prev hL
        have hacc1 : 0 < acc.length := by
          cases acc with
          | nil => simp at hL
          | cons a t => simp
        obtain ⟨ihlen, ihpre, ihchar⟩ := ih (acc ++ [clampStep prev.time ts]) res h
        have hlen' : (acc ++ [clampStep prev.time ts]).length = acc.length + 1 := by simp
        refine ⟨?_, ?_, ?_⟩
        · rw [ihlen, hlen']
          simp [Nat.add_assoc, Nat.add_comm 1]
        · intro i hi
          rw [ihpre i (by simp; omega)]
          exact getD_append_left acc [clampStep prev.time ts] _ i hi
        · intro _ j hj
          cases j with
          | zero =>
            refine ⟨ts, tp, hA, ?_⟩
            have h1 : res.getD (acc.length + 0) ⟨0,0,0⟩ = clampStep prev.time ts := by
              have := ihpre acc.length (by rw [hlen']; omega)
              rw [Nat.add_zero, this]
              exact getD_snoc_length acc _ _
            have h2 : res.getD (acc.length + 0 - 1) ⟨0,0,0⟩ = prev := by
              have := ihpre (acc.length - 1) (by rw [hlen']; omega)
              rw [Nat.add_zero, this]
              rw [getD_append_left acc [clampStep prev.time ts] _ (acc.length - 1) (by omega)]
              exact getLast?_eq_getD _ acc prev hL
            rw [h1, h2]
          | succ j' =>
            have hj' : j' < rest.length := by simpa using hj
            obtain ⟨r, tp', hA', hchar⟩ := ihchar (by simp) j' hj'
            refine ⟨r, tp', ?_, ?_⟩
            · simpa using hA'
            · have e1 : (acc ++ [clampStep prev.time ts]).length + j' = acc.length + (j' + 1) := by
                rw [hlen']; omega
              rw [e1] at hchar
              exact hchar


lemma addTimePoints_chain (date sr ss : Int) :
    ∀ (entries : List TimedColorTemperature) (acc res : List TimeStamp),
      addTimePoints date sr ss entries acc = .ok res →
      List.Chain' (fun a b => a.time ≤ b.time) acc →
      List.Chain' (fun a b => a.time ≤ b.time) res := by
  intro entries
  induction entries with
  | nil =>
    intro acc res h hc
    rw [addTimePoints] at h
    cases h
    exact hc
  | cons tc rest ih =>
    intro acc res h hc
    rw [addTimePoints] at h
    split at h
    · exact absurd h (by simp)
    · exact absurd h (by simp)
    · rename_i ts tp hA
      split at h
      · exact absurd h (by simp)
      · rename_i prev hL
        refine ih _ res h ?_
        rw [List.chain'_append]
        refine ⟨hc, List.chain'_singleton _, ?_⟩
        intro x hx y hy
        rw [hL] at hx
        simp only [List.head?_cons, Option.mem_def, Option.some.injEq] at hx hy
        subst hx
        subst hy
        unfold clampStep
        split
        · show prev.time ≤ prev.time + 60
          omega
        · rename_i hgt
          omega

lemma CNSS_ok_decomp (cs : List TimedColorTemperature) (sr ss d : Int) (ts : List TimeStamp)
    (h : ComputeNewStyleSchedule cs sr ss d = .ok ts) :
    ∃ lastS prevTs tpPrev acc first nextTs tpNext,
      cs.getLast? = some lastS ∧
      AsTimestamp2 lastS (d - 86400) sr ss = .ok (prevTs, tpPrev) ∧
      addTimePoints d sr ss cs [prevTs] = .ok acc ∧
      cs.head? = some first ∧
      AsTimestamp2 first (d + 86400) sr ss = .ok (nextTs, tpNext) ∧
      ts = acc ++ [nextTs] := by
  unfold ComputeNewStyleSchedule at h
  split at h
  · exact absurd h (by simp)
  · rename_i lastS hLast
    split at h
    · exact absurd h (by simp)
    · exact absurd h (by simp)
    · rename_i prevTs tpPrev hPrev
      split at h
      · exact absurd h (by simp)
      · exact absurd h (by simp)
      · rename_i acc hAdd
        split at h
        · exact absurd h (by simp)
        · rename_i first hFirst
          split at h
          · exact absurd h (by simp)
          · exact absurd h (by simp)
          · rename_i nextTs tpNext hNext
            cases h
            exact ⟨lastS, prevTs, tpPrev, acc, first, nextTs, tpNext,
                   hLast, hPrev, hAdd, hFirst, hNext, rfl⟩


end Kelvin

namespace Kelvin

/-- C1: for every non-empty unified schedule of N entries on which it
succeeds, `ComputeNewStyleSchedule` returns a list of exactly N+2
timestamps (previous-day seed, one element per declared anchor, next-day
seed). -/
theorem c1_schedule_length (cs : List TimedColorTemperature) (sr ss d : Int)
    (ts : List TimeStamp) (_hne : cs ≠ [])
    (h : ComputeNewStyleSchedule cs sr ss d = .ok ts) :
    ts.length = cs.length + 2 := by
  obtain ⟨lastS, prevTs, tpPrev, acc, first, nextTs, tpNext,
          hLast, hPrev, hAdd, hFirst, hNext, hts⟩ := CNSS_ok_decomp cs sr ss d ts h
  obtain ⟨hlen, -, -⟩ := addTimePoints_ok d sr ss cs [prevTs] acc hAdd
  subst hts
  simp only [List.length_append, List.length_cons, List.length_nil, hlen]
  omega

/-- C1 witness: the theorem applied to the one-anchor schedule `12:00`
with sunrise 100, sunset 200, date 0. -/
theorem c1_witness :
    ([⟨-43200, 5, 6⟩, ⟨43200, 5, 6⟩, ⟨129600, 5, 6⟩] : List TimeStamp).length
      = ([⟨"12:00", 5, 6⟩] : List TimedColorTemperature).length + 2 :=
  c1_schedule_length [⟨"12:00", 5, 6⟩] 100 200 0
    [⟨-43200, 5, 6⟩, ⟨43200, 5, 6⟩, ⟨129600, 5, 6⟩] (by decide) (by decide)

/-- C2 (amended): every adjacent pair of the returned sequence is
non-decreasing except possibly the final pair: dropping the last element
(the next-day seed, which is appended without clamping) leaves a
non-decreasing chain. -/
theorem c2_monotone_before_final (cs : List TimedColorTemperature) (sr ss d : Int)
    (ts : List TimeStamp) (h : ComputeNewStyleSchedule cs sr ss d = .ok ts) :
    List.Chain' (fun a b => a.time ≤ b.time) ts.dropLast := by
  obtain ⟨lastS, prevTs, tpPrev, acc, first, nextTs, tpNext,
          hLast, hPrev, hAdd, hFirst, hNext, hts⟩ := CNSS_ok_decomp cs sr ss d ts h
  have hchain := addTimePoints_chain d sr ss cs [prevTs] acc hAdd (List.chain'_singleton _)
  subst hts
  rw [List.dropLast_concat]
  exact hchain

/-- C2 witness: the amended theorem applied to the one-anchor schedule
`12:00` with sunrise 100, sunset 200, date 0. -/
theorem c2_witness :
    List.Chain' (fun a b => a.time ≤ b.time)
      ([⟨-43200, 5, 6⟩, ⟨43200, 5, 6⟩, ⟨129600, 5, 6⟩] : List TimeStamp).dropLast :=
  c2_monotone_before_final [⟨"12:00", 5, 6⟩] 100 200 0
    [⟨-43200, 5, 6⟩, ⟨43200, 5, 6⟩, ⟨129600, 5, 6⟩] (by decide)

/-- C2 counterexample: for the schedule `[sunrise, 23:00]` with sunrise
27000 the next-day seed re-resolves `sunrise` to the same supplied instant
27000, which is before its predecessor 82800, so the full returned
sequence (final seed element included) is not non-decreasing. -/
theorem c2_counterexample :
    ComputeNewStyleSchedule [⟨"sunrise", 0, 0⟩, ⟨"23:00", 0, 0⟩] 27000 72000 0 =
      .ok [⟨-3600, 0, 0⟩, ⟨27000, 0, 0⟩, ⟨82800, 0, 0⟩, ⟨27000, 0, 0⟩] ∧
    ¬ List.Chain' (fun a b => a.time ≤ b.time)
        ([⟨-3600, 0, 0⟩, ⟨27000, 0, 0⟩, ⟨82800, 0, 0⟩, ⟨27000, 0, 0⟩] : List TimeStamp) :=
  ⟨by decide, by norm_num [List.chain'_cons]⟩

/-- C3: each same-day anchor is resolved in declared order and compared
with the previously appended element: if its resolved instant is not
strictly after the previous element's instant, the stored instant is the
previous instant plus one minute (keeping the anchor's declared color and
brightness); otherwise the resolved point is stored unchanged. -/
theorem c3_greedy_clamp (cs : List TimedColorTemperature) (sr ss d : Int)
    (ts : List TimeStamp) (h : ComputeNewStyleSchedule cs sr ss d = .ok ts)
    (i : Nat) (hi : i < cs.length) (r : TimeStamp) (tp : TimePointType)
    (hr : AsTimestamp2 (cs.getD i ⟨"", 0, 0⟩) d sr ss = .ok (r, tp)) :
    ts.getD (i + 1) ⟨0, 0, 0⟩ =
      (if r.time ≤ (ts.getD i ⟨0, 0, 0⟩).time
       then ⟨(ts.getD i ⟨0, 0, 0⟩).time + 60, r.colorTemperature, r.brightness⟩
       else r) := by
  obtain ⟨lastS, prevTs, tpPrev, acc, first, nextTs, tpNext,
          hLast, hPrev, hAdd, hFirst, hNext, hts⟩ := CNSS_ok_decomp cs sr ss d ts h
  obtain ⟨hlen, hpre, hchar⟩ := addTimePoints_ok d sr ss cs [prevTs] acc hAdd
  have hlenacc : acc.length = 1 + cs.length := by simpa using hlen
  obtain ⟨r', tp', hr', heq⟩ := hchar (by simp) i hi
  rw [hr] at hr'
  simp only [GoRes.ok.injEq, Prod.mk.injEq] at hr'
  obtain ⟨h1, h2⟩ := hr'
  subst h1
  have hL1 : ([prevTs] : List TimeStamp).length = 1 := rfl
  rw [hL1] at heq
  have e2 : 1 + i - 1 = i := by omega
  have e1 : 1 + i = i + 1 := by omega
  rw [e2, e1] at heq
  have hts1 : ts.getD (i + 1) ⟨0, 0, 0⟩ = acc.getD (i + 1) ⟨0, 0, 0⟩ := by
    subst hts
    exact getD_append_left acc [nextTs] _ (i + 1) (by omega)
  have hts0 : ts.getD i ⟨0, 0, 0⟩ = acc.getD i ⟨0, 0, 0⟩ := by
    subst hts
    exact getD_append_left acc [nextTs] _ i (by omega)
  rw [hts1, hts0, heq]
  unfold clampStep
  rfl

/-- C3 witness: the theorem applied to the one-anchor schedule `12:00`
at index 0. -/
theorem c3_witness :
    ([⟨-43200, 5, 6⟩, ⟨43200, 5, 6⟩, ⟨129600, 5, 6⟩] : List TimeStamp).getD (0 + 1) ⟨0, 0, 0⟩ =
      (if (⟨43200, 5, 6⟩ : TimeStamp).time ≤
            (([⟨-43200, 5, 6⟩, ⟨43200, 5, 6⟩, ⟨129600, 5, 6⟩] : List TimeStamp).getD 0 ⟨0, 0, 0⟩).time
       then ⟨(([⟨-43200, 5, 6⟩, ⟨43200, 5, 6⟩, ⟨129600, 5, 6⟩] : List TimeStamp).getD 0 ⟨0, 0, 0⟩).time + 60,
             (⟨43200, 5, 6⟩ : TimeStamp).colorTemperature, (⟨43200, 5, 6⟩ : TimeStamp).brightness⟩
       else ⟨43200, 5, 6⟩) :=
  c3_greedy_clamp [⟨"12:00", 5, 6⟩] 100 200 0
    [⟨-43200, 5, 6⟩, ⟨43200, 5, 6⟩, ⟨129600, 5, 6⟩] (by decide) 0 (by decide)
    ⟨43200, 5, 6⟩ .FixedTimePoint (by decide)

/-- C4 (amended): the first returned element is the last anchor resolved
against the previous calendar day and the final element is the first
anchor resolved against the next calendar day, both using the same single
supplied sunrise/sunset pair (the builder receives no per-day sun
instants). -/
theorem c4_boundary_seeds (cs : List TimedColorTemperature) (sr ss d : Int)
    (ts : List TimeStamp) (l f : TimedColorTemperature)
    (hl : cs.getLast? = some l) (hf : cs.head? = some f)
    (h : ComputeNewStyleSchedule cs sr ss d = .ok ts) :
    ∃ pl tpl pf tpf,
      AsTimestamp2 l (d - 86400) sr ss = .ok (pl, tpl) ∧
      AsTimestamp2 f (d + 86400) sr ss = .ok (pf, tpf) ∧
      ts.head? = some pl ∧ ts.getLast? = some pf := by
  obtain ⟨lastS, prevTs, tpPrev, acc, first, nextTs, tpNext,
          hLast, hPrev, hAdd, hFirst, hNext, hts⟩ := CNSS_ok_decomp cs sr ss d ts h
  rw [hl] at hLast
  rw [hf] at hFirst
  obtain rfl : l = lastS := Option.some.inj hLast
  obtain rfl : f = first := Option.some.inj hFirst
  obtain ⟨hlen, hpre, -⟩ := addTimePoints_ok d sr ss cs [prevTs] acc hAdd
  have haccne : acc ≠ [] := by
    intro hE
    rw [hE] at hlen
    simp at hlen
    omega
  refine ⟨prevTs, tpPrev, nextTs, tpNext, hPrev, hNext, ?_, ?_⟩
  · subst hts
    have h0 : acc.getD 0 ⟨0, 0, 0⟩ = prevTs := by
      have := hpre 0 (by simp)
      simpa using this
    cases acc with
    | nil => exact absurd rfl haccne
    | cons a t =>
      simp only [List.cons_append, List.head?_cons]
      exact congrArg some h0
  · subst hts
    simp [List.getLast?_append]

/-- C4 witness: the amended theorem applied to the one-anchor schedule
`12:00` with sunrise 100, sunset 200, date 0. -/
theorem c4_witness :
    ∃ pl tpl pf tpf,
      AsTimestamp2 ⟨"12:00", 5, 6⟩ ((0 : Int) - 86400) 100 200 = .ok (pl, tpl) ∧
      AsTimestamp2 ⟨"12:00", 5, 6⟩ ((0 : Int) + 86400) 100 200 = .ok (pf, tpf) ∧
      ([⟨-43200, 5, 6⟩, ⟨43200, 5, 6⟩, ⟨129600, 5, 6⟩] : List TimeStamp).head? = some pl ∧
      ([⟨-43200, 5, 6⟩, ⟨43200, 5, 6⟩, ⟨129600, 5, 6⟩] : List TimeStamp).getLast? = some pf :=
  c4_boundary_seeds [⟨"12:00", 5, 6⟩] 100 200 0
    [⟨-43200, 5, 6⟩, ⟨43200, 5, 6⟩, ⟨129600, 5, 6⟩] ⟨"12:00", 5, 6⟩ ⟨"12:00", 5, 6⟩
    (by decide) (by decide) (by decide)

/-- C4 counterexample: with last anchor `sunset` and supplied sunset
72000 (inside the current day), the \"previous-day\" seed is exactly the
supplied current-day sunset instant — it does not precede the current
day's start, so it is not a resolution against the previous day's sunset
instant as the claim states. -/
theorem c4_counterexample :
    ComputeNewStyleSchedule [⟨"10:00", 0, 0⟩, ⟨"sunset", 0, 0⟩] 27000 72000 0 =
      .ok [⟨72000, 0, 0⟩, ⟨72060, 0, 0⟩, ⟨72120, 0, 0⟩, ⟨122400, 0, 0⟩] ∧
    (([⟨72000, 0, 0⟩, ⟨72060, 0, 0⟩, ⟨72120, 0, 0⟩, ⟨122400, 0, 0⟩] : List TimeStamp).getD 0 ⟨0, 0, 0⟩).time
      = 72000 ∧
    ¬ ((([⟨72000, 0, 0⟩, ⟨72060, 0, 0⟩, ⟨72120, 0, 0⟩, ⟨122400, 0, 0⟩] : List TimeStamp).getD 0 ⟨0, 0, 0⟩).time
        < startOfDay 0) :=
  ⟨by decide, by decide, by decide⟩

/-- C5 (code bug evidence): `25:99` matches the regex's time alternative
but fails `time.Parse`, returning an error that aborts
`ComputeNewStyleSchedule` with the offending entry; `moonrise` does not
match the regex at all, so `FindStringSubmatch` returns nil and the
`matches[0]` index panics instead of returning the (unreachable)
invalid-timestamp error. -/
theorem c5_behavior_at_invalid_specs :
    AsTimestamp2 ⟨"25:99", 1, 2⟩ 0 27000 72000 = .err (.timeParseError "25:99") ∧
    ComputeNewStyleSchedule [⟨"25:99", 1, 2⟩] 27000 72000 0 =
      .err ⟨"25:99", 1, 2⟩ (.timeParseError "25:99") ∧
    AsTimestamp2 ⟨"moonrise", 1, 2⟩ 0 27000 72000 = .panic ∧
    ComputeNewStyleSchedule [⟨"moonrise", 1, 2⟩] 27000 72000 0 = .panic :=
  ⟨rfl, rfl, rfl, rfl⟩

/-- C7 counterexample: on the claim's eight-anchor schedule the builder
returns ten elements, with cascading clamps (the second same-day anchor
`04:00` resolves to 1619582400 but 1619647260 is stored), not the claimed
eight-point strictly-increasing sequence. -/
theorem c7_counterexample :
    ComputeNewStyleSchedule
      [⟨"22:00", 2000, 70⟩, ⟨"04:00", 2000, 60⟩, ⟨"sunrise+0m", 2700, 60⟩,
       ⟨"sunrise+30m", 5000, 100⟩, ⟨"sunset-30m", 5000, 100⟩, ⟨"sunset+0m", 2700, 80⟩,
       ⟨"22:00", 2000, 70⟩, ⟨"04:00", 2000, 60⟩]
      1619595000 1619640000 1619568001 =
      .ok [⟨1619496000, 2000, 60⟩, ⟨1619647200, 2000, 70⟩, ⟨1619647260, 2000, 60⟩,
           ⟨1619647320, 2700, 60⟩, ⟨1619647380, 5000, 100⟩, ⟨1619647440, 5000, 100⟩,
           ⟨1619647500, 2700, 80⟩, ⟨1619647560, 2000, 70⟩, ⟨1619647620, 2000, 60⟩,
           ⟨1619733600, 2000, 70⟩] ∧
    AsTimestamp2 ⟨"04:00", 2000, 60⟩ 1619568001 1619595000 1619640000 =
      .ok (⟨1619582400, 2000, 60⟩, .FixedTimePoint) ∧
    (1619582400 : Int) ≠ 1619647260 :=
  ⟨rfl, rfl, by decide⟩

/-- C7 (amended): the six-anchor fixture schedule
`[04:00, sunrise+0m, sunrise+30m, sunset-30m, sunset+0m, 22:00]` with
sunrise 07:30 and sunset 20:00 on 2021-04-28 resolves exactly to
22:00(prev) → 04:00, 07:30, 08:00, 19:30, 20:00, 22:00 → 04:00(next),
each with its declared color temperature and brightness, all steps
strictly increasing (hence no clamping triggered). -/
theorem c7_fixture_resolution :
    ComputeNewStyleSchedule
      [⟨"04:00", 2000, 60⟩, ⟨"sunrise+0m", 2700, 60⟩, ⟨"sunrise+30m", 5000, 100⟩,
       ⟨"sunset-30m", 5000, 100⟩, ⟨"sunset+0m", 2700, 80⟩, ⟨"22:00", 2000, 70⟩]
      1619595000 1619640000 1619568001 =
      .ok [⟨1619560800, 2000, 70⟩, ⟨1619582400, 2000, 60⟩, ⟨1619595000, 2700, 60⟩,
           ⟨1619596800, 5000, 100⟩, ⟨1619638200, 5000, 100⟩, ⟨1619640000, 2700, 80⟩,
           ⟨1619647200, 2000, 70⟩, ⟨1619668800, 2000, 60⟩] ∧
    List.Chain' (fun a b => a.time < b.time)
      [(⟨1619560800, 2000, 70⟩ : TimeStamp), ⟨1619582400, 2000, 60⟩, ⟨1619595000, 2700, 60⟩,
       ⟨1619596800, 5000, 100⟩, ⟨1619638200, 5000, 100⟩, ⟨1619640000, 2700, 80⟩,
       ⟨1619647200, 2000, 70⟩, ⟨1619668800, 2000, 60⟩] :=
  ⟨rfl, by norm_num [List.chain'_cons]⟩


lemma findLightSchedule_none (light : Int) :
    ∀ l : List LightSchedule, (∀ x ∈ l, containsInt x.associatedDeviceIDs light = false) →
      findLightSchedule l light = none := by
  intro l
  induction l with
  | nil => intro _; rfl
  | cons a t ih =>
    intro hall
    have ha := hall a (by simp)
    rw [findLightSchedule, ha]
    simp only [Bool.false_eq_true, if_false]
    exact ih (fun x hx => hall x (by simp [hx]))

lemma findLightSchedule_first (light : Int) :
    ∀ (pre : List LightSchedule) (s : LightSchedule) (post : List LightSchedule),
      (∀ x ∈ pre, containsInt x.associatedDeviceIDs light = false) →
      containsInt s.associatedDeviceIDs light = true →
      findLightSchedule (pre ++ s :: post) light = some s := by
  intro pre
  induction pre with
  | nil =>
    intro s post _ hs
    rw [List.nil_append, findLightSchedule, hs]
    simp
  | cons a t ih =>
    intro s post hpre hs
    have ha := hpre a (by simp)
    rw [List.cons_append, findLightSchedule, ha]
    simp only [Bool.false_eq_true, if_false]
    exact ih s post (fun x hx => hpre x (by simp [hx])) hs

/-- C8 counterexample: a configuration whose only schedule has a
present-but-empty unified anchor list resolves successfully (legacy path,
nil error) for an associated light, instead of failing with an
empty-schedule error. -/
theorem c8_counterexample :
    lightScheduleForDay ⟨⟨0, 0⟩, [⟨"s", [1], true, 2750, 100, [], [], []⟩]⟩ 1 0
      ⟨fun _ _ _ => 27000, fun _ _ _ => 72000⟩ =
      .ok ⟨86399, ⟨27000, 2750, 100⟩, ⟨72000, 2750, 100⟩, [], [], [], true⟩ := rfl

/-- C8 (amended): when the first matching schedule's unified anchor list
is empty, `lightScheduleForDay` ignores it and succeeds through the
legacy before-sunrise/after-sunset path; no empty-schedule error exists on
this path. -/
theorem c8_empty_unified_falls_back_to_legacy (configuration : Configuration)
    (light date : Int) (sunCalc : SunStateCalculator)
    (pre : List LightSchedule) (s : LightSchedule) (post : List LightSchedule)
    (hsch : configuration.schedules = pre ++ s :: post)
    (hpre : ∀ x ∈ pre, containsInt x.associatedDeviceIDs light = false)
    (hs : containsInt s.associatedDeviceIDs light = true)
    (hempty : s.schedule = []) :
    isOk (lightScheduleForDay configuration light date sunCalc) = true := by
  unfold lightScheduleForDay
  rw [hsch, findLightSchedule_first light pre s post hpre hs]
  simp only [hempty]
  rfl

/-- C8 witness: the amended theorem applied to a two-schedule
configuration whose second schedule (empty unified list) governs light 2. -/
theorem c8_witness :
    isOk (lightScheduleForDay ⟨⟨3, 4⟩, [⟨"a", [9], false, 1, 2, [], [], []⟩,
        ⟨"b", [2], false, 2750, 100, [⟨"4:00", 2000, 60⟩], [], []⟩]⟩ 2 0
      ⟨fun _ _ _ => 27000, fun _ _ _ => 72000⟩) = true :=
  c8_empty_unified_falls_back_to_legacy _ 2 0 _
    [⟨"a", [9], false, 1, 2, [], [], []⟩] ⟨"b", [2], false, 2750, 100, [⟨"4:00", 2000, 60⟩], [], []⟩ []
    rfl (by decide) (by decide) rfl

/-- C9: `lightScheduleForDay` selects the first schedule in
configuration order whose associated device IDs contain the light (the
result equals the result on a configuration holding only that schedule),
and fails with a no-schedule-for-light error when no schedule's list
contains it. -/
theorem c9_first_match_selection (configuration : Configuration) (light date : Int)
    (sunCalc : SunStateCalculator) :
    ((∀ s ∈ configuration.schedules, containsInt s.associatedDeviceIDs light = false) →
      lightScheduleForDay configuration light date sunCalc = .err (.noScheduleForLight light)) ∧
    (∀ (pre : List LightSchedule) (s : LightSchedule) (post : List LightSchedule),
      configuration.schedules = pre ++ s :: post →
      (∀ x ∈ pre, containsInt x.associatedDeviceIDs light = false) →
      containsInt s.associatedDeviceIDs light = true →
      lightScheduleForDay configuration light date sunCalc =
        lightScheduleForDay ⟨configuration.location, [s]⟩ light date sunCalc) := by
  constructor
  · intro hall
    unfold lightScheduleForDay
    rw [findLightSchedule_none light _ hall]
  · intro pre s post hsch hpre hs
    unfold lightScheduleForDay
    rw [hsch, findLightSchedule_first light pre s post hpre hs]
    rw [show findLightSchedule ((⟨configuration.location, [s]⟩ : Configuration).schedules) light
          = some s by rw [show (⟨configuration.location, [s]⟩ : Configuration).schedules = [s] from rfl,
                          findLightSchedule, hs]; simp]

/-- C9 witness: both parts applied to concrete configurations — a miss
for light 7, and a second-schedule match for light 2. -/
theorem c9_witness :
    (lightScheduleForDay ⟨⟨0, 0⟩, [⟨"a", [9], false, 1, 2, [], [], []⟩]⟩ 7 0
        ⟨fun _ _ _ => 27000, fun _ _ _ => 72000⟩ = .err (.noScheduleForLight 7)) ∧
    (lightScheduleForDay ⟨⟨0, 0⟩, [⟨"a", [9], false, 1, 2, [], [], []⟩,
        ⟨"b", [2], false, 2750, 100, [], [], []⟩]⟩ 2 0
        ⟨fun _ _ _ => 27000, fun _ _ _ => 72000⟩ =
      lightScheduleForDay ⟨⟨0, 0⟩, [⟨"b", [2], false, 2750, 100, [], [], []⟩]⟩ 2 0
        ⟨fun _ _ _ => 27000, fun _ _ _ => 72000⟩) :=
  ⟨(c9_first_match_selection _ 7 0 _).1 (by decide),
   (c9_first_match_selection _ 2 0 _).2 [⟨"a", [9], false, 1, 2, [], [], []⟩]
     ⟨"b", [2], false, 2750, 100, [], [], []⟩ [] rfl (by decide) (by decide)⟩

/-- C10: the unanchored regex accepts strings outside the documented
grammar: `sunset + 45` (malformed offset, silently ignored) and
`xsunsetxx` (substring match) both resolve to the plain supplied sunset
instant. -/
theorem c10_unanchored_acceptance :
    AsTimestamp2 ⟨"sunset + 45", 2700, 80⟩ 0 27000 72000 = .ok (⟨72000, 2700, 80⟩, .Sunset) ∧
    AsTimestamp2 ⟨"xsunsetxx", 1, 2⟩ 0 27000 72000 = .ok (⟨72000, 1, 2⟩, .Sunset) :=
  ⟨rfl, rfl⟩

end Kelvin
